import Mathlib

/-!
Shallow embedding of `src/Twitter_Test_Console/autoPost.js` (the whole
repository: a one-file CLI that posts tweets and replies through an external
platform client, with cookie-based session persistence and media attachment
preparation).

External effects (the file system, the platform client `scraper`, the cookie
file, the environment credentials) are modelled by an explicit `Env` record of
oracles; each method of the `TwitterPost` class becomes a pure function from
`Env` and the current state to an `Out α`: a result (`Except Unit α`, `.error`
standing for a thrown JS exception), the updated state, and the list of
observable calls made on the platform client (the trace).
-/

namespace AutoPost

/-- Scan state of Node's `path.extname` loop (posix variant): `startDot`,
`startPart`, `endIdx` and `preDotState` mirror the like-named variables of
`lib/path.js`; `-1` is the same sentinel JS uses. -/
structure ExtScan where
  startDot : Int
  startPart : Nat
  endIdx : Int
  matchedSlash : Bool
  preDotState : Int
deriving Repr, DecidableEq

/-- The backwards scan of `path.extname`, from index `i - 1` down to `0`;
a `'/'` met after a non-slash character stops the scan (the `break`). -/
def extLoop (a : Array Char) : Nat → ExtScan → ExtScan
  | 0, st => st
  | i + 1, st =>
    let c := a.getD i ' '
    if c = '/' then
      if !st.matchedSlash then { st with startPart := i + 1 }
      else extLoop a i st
    else
      let st1 :=
        if st.endIdx = -1 then
          { st with matchedSlash := false, endIdx := (i : Int) + 1 }
        else st
      let st2 :=
        if c = '.' then
          if st1.startDot = -1 then { st1 with startDot := (i : Int) }
          else if st1.preDotState ≠ 1 then { st1 with preDotState := 1 }
          else st1
        else if st1.startDot ≠ -1 then { st1 with preDotState := -1 }
        else st1
      extLoop a i st2

/-- Node's `path.extname` (posix): the extension of the last path component,
from its last `.` to the end; a lone leading dot (dotfile) or a `..` component
yields the empty string. -/
def extname (p : String) : String :=
  let a := p.toList.toArray
  let st := extLoop a a.size ⟨-1, 0, -1, true, 0⟩
  if st.startDot = -1 ∨ st.endIdx = -1 ∨ st.preDotState = 0 ∨
      (st.preDotState = 1 ∧ st.startDot = st.endIdx - 1 ∧
        st.startDot = (st.startPart : Int) + 1) then ""
  else
    String.mk ((p.toList.drop st.startDot.toNat).take
      (st.endIdx.toNat - st.startDot.toNat))

/-- JS `String.prototype.toLowerCase`, character by character (every string
the program lowercases is ASCII, where this agrees with JS). -/
def toLowerCase (s : String) : String :=
  String.mk (s.toList.map Char.toLower)

/-- The fixed extension-to-MIME table of `getMimeType` (lines 93-100). -/
def mimeTypes : List (String × String) :=
  [(".jpg", "image/jpeg"), (".jpeg", "image/jpeg"), (".png", "image/png"),
   (".gif", "image/gif"), (".mp4", "video/mp4"), (".mov", "video/quicktime")]

/-- `getMimeType(filePath)` (lines 91-102): lower-case the extension of the
path and look it up in the fixed table; a missed lookup gives `null`,
modelled as `none`. -/
def getMimeType (filePath : String) : Option String :=
  mimeTypes.lookup (toLowerCase (extname filePath))

/-- State of one path in the modelled file system: `absent` (fails the
`existsSync` check), `present` with its byte content (readable), or
`unreadable` (passes the `existsSync` check but `readFile` throws). -/
inductive FileState where
  | absent
  | present (content : List Nat)
  | unreadable
deriving Repr, DecidableEq

/-- A file system assigns a state to every path string. -/
def FileSys : Type := String → FileState

/-- `existsSync` on the modelled file system. -/
def fsExists (st : FileState) : Bool :=
  match st with
  | .absent => false
  | _ => true

/-- `fs.readFile` on the modelled file system: yields the content of a
present file and throws otherwise. -/
def fsRead (st : FileState) : Except Unit (List Nat) :=
  match st with
  | .present content => .ok content
  | _ => .error ()

/-- A media attachment as pushed by `prepareMediaData` (lines 122-125):
raw byte content plus MIME type string. -/
structure Attachment where
  data : List Nat
  mediaType : String
deriving Repr, DecidableEq

/-- The `for` loop body of `prepareMediaData` (lines 108-126), inside the
`try`: skip paths failing the `existsSync` check, read the file (a throw
escapes the loop), skip paths with no MIME type, else append an attachment. -/
def prepareLoop (fs : FileSys) : List String → List Attachment →
    Except Unit (List Attachment)
  | [], acc => .ok acc
  | filePath :: rest, acc =>
    if fsExists (fs filePath) = false then prepareLoop fs rest acc
    else
      match fsRead (fs filePath) with
      | .error e => .error e
      | .ok data =>
        match getMimeType filePath with
        | none => prepareLoop fs rest acc
        | some mediaType =>
          prepareLoop fs rest (acc ++ [⟨data, mediaType⟩])

/-- `prepareMediaData(mediaFiles)` (lines 104-133): run the loop under the
`try`; the `catch` turns any thrown exception into the empty list. -/
def prepareMediaData (fs : FileSys) (mediaFiles : List String) :
    List Attachment :=
  match prepareLoop fs mediaFiles [] with
  | .ok mediaData => mediaData
  | .error _ => []

/-- A cookie record as read from the cookie file: either one that
`Cookie.fromJSON` accepts (identified abstractly by a number) or a malformed
one that it rejects. -/
inductive RawCookie where
  | valid (id : Nat)
  | malformed
deriving Repr, DecidableEq

/-- `Cookie.fromJSON` wrapped in the per-entry `try` of lines 55-60: a valid
record parses, a malformed one is dropped (`null`, filtered out). -/
def parseCookie (raw : RawCookie) : Option Nat :=
  match raw with
  | .valid id => some id
  | .malformed => none

/-- Contents of the cookie file: absent, present but not a parseable JSON
array (including an empty file), or a JSON array of records. -/
inductive CookieFile where
  | missing
  | garbage
  | entries (raw : List RawCookie)
deriving Repr, DecidableEq

/-- Oracles for every external effect: the file system, the cookie file, the
platform client's answers (`isLoggedIn` after `setCookies`, whether `login`
succeeds, the cookies `getCookies` returns, whether `writeFile` and
`sendTweet` succeed). -/
structure Env where
  fs : FileSys
  cookieFile : CookieFile
  cookiesValid : Bool
  loginOk : Bool
  freshCookies : List Nat
  saveOk : Bool
  sendOk : Bool

/-- The mutable state of a `TwitterPost` instance: the `isLoggedIn` flag
(line 12). -/
structure PState where
  isLoggedIn : Bool
deriving Repr, DecidableEq

/-- The state of a freshly constructed `TwitterPost` (line 9-13). -/
def initState : PState := ⟨false⟩

/-- Observable calls on the platform client and the cookie file, recorded in
order. A `send` records the `isLoggedIn` flag at the moment `sendTweet` is
invoked, the text, the optional reply target, and the attachment argument
(`none` when `sendTweet(text)` is called with no media argument). -/
inductive Event where
  | loginCall
  | setCookies (cs : List Nat)
  | isLoggedInQ (result : Bool)
  | saveWrite (ok : Bool)
  | prepareMedia (files : List String)
  | send (auth : Bool) (text : String) (replyTo : Option String)
      (media : Option (List Attachment))
deriving Repr, DecidableEq

/-- Result of running a method: the value or the thrown exception, the state
of the instance afterwards, and the recorded trace. -/
structure Out (α : Type) where
  res : Except Unit α
  state : PState
  trace : List Event
deriving Repr

/-- `saveCookies(cookies)` (lines 80-89): attempt the write; the `catch`
swallows a failure, so the method itself never throws. -/
def saveCookies (env : Env) (s : PState) : Out Unit :=
  { res := .ok (), state := s, trace := [.saveWrite env.saveOk] }

/-- `login()` (lines 30-45): `scraper.login` with the credentials; on success
set `isLoggedIn`, fetch the cookies and save them; on failure rethrow. -/
def login (env : Env) (s : PState) : Out Unit :=
  if env.loginOk then
    let s1 : PState := { s with isLoggedIn := true }
    let sv := saveCookies env s1
    { res := .ok (), state := sv.state, trace := .loginCall :: sv.trace }
  else
    { res := .error (), state := s, trace := [.loginCall] }

/-- `loadCookies()` (lines 47-78). The returned list is the `cookies` value
computed at lines 54-61 (empty when control never reaches it). A missing file
leaves the state untouched; a file that fails to parse lands in the `catch`,
which clears `isLoggedIn`; a parsed array is filtered entry by entry, and only
a non-empty valid remainder is installed into the client, whose
`isLoggedIn()` answer becomes the new state. The internal `catch` means the
method never throws. -/
def loadCookies (env : Env) (s : PState) : Out (List Nat) :=
  match env.cookieFile with
  | .missing => { res := .ok [], state := s, trace := [] }
  | .garbage => { res := .ok [], state := { s with isLoggedIn := false }, trace := [] }
  | .entries raw =>
    let cookies := raw.filterMap parseCookie
    if cookies.length > 0 then
      { res := .ok cookies,
        state := { s with isLoggedIn := env.cookiesValid },
        trace := [.setCookies cookies, .isLoggedInQ env.cookiesValid] }
    else
      { res := .ok cookies, state := { s with isLoggedIn := false }, trace := [] }

/-- `initialize()` (lines 15-28): load cookies, then log in if still not
authenticated; its `catch` rethrows, so a login failure propagates. -/
def initSession (env : Env) (s : PState) : Out Unit :=
  let lc := loadCookies env s
  if lc.state.isLoggedIn then
    { res := .ok (), state := lc.state, trace := lc.trace }
  else
    let lg := login env lc.state
    { res := lg.res, state := lg.state, trace := lc.trace ++ lg.trace }

/-- One `scraper.sendTweet` call (success iff `env.sendOk`), recording the
`isLoggedIn` flag at the moment of the call. -/
def sendStep (env : Env) (s1 : PState) (text : String) (replyTo : Option String)
    (media : Option (List Attachment)) (t : List Event) : Out Bool :=
  let ev := Event.send s1.isLoggedIn text replyTo media
  if env.sendOk then
    { res := .ok true, state := s1, trace := t ++ [ev] }
  else
    { res := .error (), state := s1, trace := t ++ [ev] }

/-- Lines 141-160 of `post`, after the login guard: empty media list sends
text-only; otherwise prepare media and send with it if non-empty, else fall
back to a text-only send; return `true`. -/
def postBody (env : Env) (s1 : PState) (text : String)
    (mediaFiles : List String) (t1 : List Event) : Out Bool :=
  if mediaFiles.length = 0 then
    sendStep env s1 text none none t1
  else
    let mediaData := prepareMediaData env.fs mediaFiles
    let t2 := t1 ++ [.prepareMedia mediaFiles]
    if mediaData.length > 0 then
      sendStep env s1 text none (some mediaData) t2
    else
      sendStep env s1 text none none t2

/-- `post(text, mediaFiles)` (lines 135-165): initialize first when not
logged in (rethrowing its failure), then the body. -/
def post (env : Env) (s : PState) (text : String)
    (mediaFiles : List String) : Out Bool :=
  if s.isLoggedIn then postBody env s text mediaFiles []
  else
    let ini := initSession env s
    match ini.res with
    | .error e => { res := .error e, state := ini.state, trace := ini.trace }
    | .ok _ => postBody env ini.state text mediaFiles ini.trace

/-- Lines 173-179 of `replyToTweet`: always prepare media and send whatever
was prepared, with the reply target. -/
def replyBody (env : Env) (s1 : PState) (tweetId : String) (text : String)
    (mediaFiles : List String) (t1 : List Event) : Out Bool :=
  let mediaData := prepareMediaData env.fs mediaFiles
  sendStep env s1 text (some tweetId) (some mediaData)
    (t1 ++ [.prepareMedia mediaFiles])

/-- `replyToTweet(tweetId, text, mediaFiles)` (lines 167-184). -/
def replyToTweet (env : Env) (s : PState) (tweetId : String) (text : String)
    (mediaFiles : List String) : Out Bool :=
  if s.isLoggedIn then replyBody env s tweetId text mediaFiles []
  else
    let ini := initSession env s
    match ini.res with
    | .error e => { res := .error e, state := ini.state, trace := ini.trace }
    | .ok _ => replyBody env ini.state tweetId text mediaFiles ini.trace

/-- The command-line entry (lines 188-233). `argv` is `process.argv.slice(2)`
(command and arguments); a JS `undefined` from destructuring past the end of
the list and an empty string are both falsy, so both guard branches map to
the same exits. Returns the process exit code and the trace of the run (empty
when no operation was attempted). -/
def cliMain (env : Env) (argv : List String) : Nat × List Event :=
  match argv with
  | [] => (1, [])
  | command :: args =>
    if command = "" then (1, [])
    else if toLowerCase command = "tweet" then
      match args with
      | [] => (1, [])
      | text :: mediaFiles =>
        if text = "" then (1, [])
        else
          let r := post env initState text mediaFiles
          (match r.res with | .ok _ => 0 | .error _ => 1, r.trace)
    else if toLowerCase command = "reply" then
      match args with
      | [] => (1, [])
      | [_] => (1, [])
      | tweetId :: replyText :: replyMedia =>
        if tweetId = "" ∨ replyText = "" then (1, [])
        else
          let r := replyToTweet env initState tweetId replyText replyMedia
          (match r.res with | .ok _ => 0 | .error _ => 1, r.trace)
    else (1, [])

/-- The authentication flag carried by a `send` event; `true` for every other
event, so "every event satisfies `sendAuth`" says exactly that no send
happens unauthenticated. -/
def Event.sendAuth : Event → Bool
  | .send auth _ _ _ => auth
  | _ => true

/-- The attachment `prepareMediaData` is expected to produce for one path:
present file with a classifiable MIME type gives its content paired with the
type, anything else gives nothing. -/
def expectedAttachment (fs : FileSys) (p : String) : Option Attachment :=
  match fs p with
  | .present d => (getMimeType p).map (fun mt => ⟨d, mt⟩)
  | _ => none

/-- Fixture: a file system where only `exists.png` exists. -/
def fsPng : FileSys := fun p =>
  if p = "exists.png" then .present [7, 7, 7] else .absent

/-- Fixture: a file system with no files. -/
def fsAbsent : FileSys := fun _ => .absent

/-- Fixture: a file system where every path passes the existence check but
every read throws. -/
def fsUnread : FileSys := fun _ => .unreadable

/-- Fixture: `a.png` is readable, every other path exists but its read
throws (the disappearing-file race). -/
def fsRace : FileSys := fun p =>
  if p = "a.png" then .present [1, 2] else .unreadable

/-- Fixture: an environment with a cookie file of one valid record that the
platform accepts, and all external operations succeeding. -/
def envValid : Env :=
  { fs := fsAbsent, cookieFile := .entries [.valid 1], cookiesValid := true,
    loginOk := true, freshCookies := [], saveOk := true, sendOk := true }

/-- Fixture: no cookie file, so a fresh login (which succeeds) is needed;
all other operations succeed. -/
def envMissing : Env :=
  { fs := fsAbsent, cookieFile := .missing, cookiesValid := false,
    loginOk := true, freshCookies := [2], saveOk := true, sendOk := true }

/-- Fixture: a cookie file holding one valid and one malformed record. -/
def envMixed : Env :=
  { fs := fsAbsent, cookieFile := .entries [.valid 1, .malformed],
    cookiesValid := true, loginOk := true, freshCookies := [],
    saveOk := true, sendOk := true }

/-- Fixture: the cookie-file write fails, everything else succeeds. -/
def envNoSave : Env :=
  { fs := fsAbsent, cookieFile := .missing, cookiesValid := false,
    loginOk := true, freshCookies := [5], saveOk := false, sendOk := true }

end AutoPost

namespace AutoPost

/-- Claim C3: a path whose extension lower-cases to one of the six supported
ones is classified to the corresponding fixed MIME type, and a path whose
extension lower-cases to anything else is classified to none. -/
theorem mime_classification (p : String) :
    (toLowerCase (extname p) = ".jpg" → getMimeType p = some "image/jpeg") ∧
    (toLowerCase (extname p) = ".jpeg" → getMimeType p = some "image/jpeg") ∧
    (toLowerCase (extname p) = ".png" → getMimeType p = some "image/png") ∧
    (toLowerCase (extname p) = ".gif" → getMimeType p = some "image/gif") ∧
    (toLowerCase (extname p) = ".mp4" → getMimeType p = some "video/mp4") ∧
    (toLowerCase (extname p) = ".mov" → getMimeType p = some "video/quicktime") ∧
    (toLowerCase (extname p) ∉
        [".jpg", ".jpeg", ".png", ".gif", ".mp4", ".mov"] →
      getMimeType p = none) := by
  refine ⟨fun h => ?_, fun h => ?_, fun h => ?_, fun h => ?_, fun h => ?_,
    fun h => ?_, fun h => ?_⟩
  · simp [getMimeType, mimeTypes, List.lookup, h]
  · simp [getMimeType, mimeTypes, List.lookup, h]
  · simp [getMimeType, mimeTypes, List.lookup, h]
  · simp [getMimeType, mimeTypes, List.lookup, h]
  · simp [getMimeType, mimeTypes, List.lookup, h]
  · simp [getMimeType, mimeTypes, List.lookup, h]
  · push_neg at h
    simp only [List.mem_cons, List.not_mem_nil, or_false] at h
    push_neg at h
    obtain ⟨h1, h2, h3, h4, h5, h6⟩ := h
    simp [getMimeType, mimeTypes, List.lookup, beq_eq_false_iff_ne.mpr h1,
      beq_eq_false_iff_ne.mpr h2, beq_eq_false_iff_ne.mpr h3,
      beq_eq_false_iff_ne.mpr h4, beq_eq_false_iff_ne.mpr h5,
      beq_eq_false_iff_ne.mpr h6]

/-- Witness for C3 at concrete mixed-case paths. -/
theorem mime_classification_witness :
    getMimeType "photo.JpG" = some "image/jpeg" ∧
    getMimeType "clip.MoV" = some "video/quicktime" ∧
    getMimeType "notes.txt" = none :=
  ⟨(mime_classification "photo.JpG").1 (by decide),
   (mime_classification "clip.MoV").2.2.2.2.2.1 (by decide),
   (mime_classification "notes.txt").2.2.2.2.2.2 (by decide)⟩

/-- In the absence of read errors, the media loop succeeds and collects, in
input order, one attachment per existing classifiable path. -/
theorem prepareLoop_eq_ok (fs : FileSys) (files : List String) :
    ∀ acc, (∀ p ∈ files, fs p ≠ FileState.unreadable) →
      prepareLoop fs files acc =
        .ok (acc ++ files.filterMap (expectedAttachment fs)) := by
  induction files with
  | nil => intro acc _; simp [prepareLoop]
  | cons p rest ih =>
    intro acc h
    have hp : fs p ≠ FileState.unreadable := h p (by simp)
    have hrest : ∀ q ∈ rest, fs q ≠ FileState.unreadable := by
      intro q hq; exact h q (by simp [hq])
    cases hfs : fs p with
    | absent =>
      simp [prepareLoop, fsExists, hfs, List.filterMap_cons, expectedAttachment,
        ih acc hrest]
    | present d =>
      cases hm : getMimeType p with
      | none =>
        simp [prepareLoop, fsExists, fsRead, hfs, hm, List.filterMap_cons,
          expectedAttachment, ih acc hrest]
      | some mt =>
        simp [prepareLoop, fsExists, fsRead, hfs, hm, List.filterMap_cons,
          expectedAttachment, ih (acc ++ [⟨d, mt⟩]) hrest]
    | unreadable => exact absurd hfs hp

/-- Claim C4: when no read throws, `prepareMediaData` skips missing and
unclassifiable paths and appends, in input order, one (content, MIME type)
attachment per remaining path. -/
theorem prepare_appends_in_order (fs : FileSys) (files : List String)
    (h : ∀ p ∈ files, fs p ≠ FileState.unreadable) :
    prepareMediaData fs files = files.filterMap (expectedAttachment fs) := by
  simp [prepareMediaData, prepareLoop_eq_ok fs files [] h]

/-- Witness for C4: only `exists.png` exists and is supported, so exactly
one attachment results. -/
theorem prepare_appends_in_order_witness :
    prepareMediaData fsPng ["exists.png", "missing.xyz"] =
      [⟨[7, 7, 7], "image/png"⟩] :=
  (prepare_appends_in_order fsPng ["exists.png", "missing.xyz"]
    (by decide)).trans (by decide)

/-- Claim C5: `prepareMediaData` converts any thrown exception of its body
into a returned empty list (it never raises), and a path that is missing, or
present but unclassifiable, is silently dropped with no effect on the rest of
the result. -/
theorem prepare_never_raises (fs : FileSys) :
    (∀ files, prepareLoop fs files [] = .error () →
      prepareMediaData fs files = []) ∧
    (∀ p rest,
      (fs p = FileState.absent ∨
        ∃ d, fs p = FileState.present d ∧ getMimeType p = none) →
      prepareMediaData fs (p :: rest) = prepareMediaData fs rest) := by
  constructor
  · intro files h
    simp [prepareMediaData, h]
  · rintro p rest (hab | ⟨d, hpr, hm⟩)
    · simp [prepareMediaData, prepareLoop, fsExists, hab]
    · simp [prepareMediaData, prepareLoop, fsExists, fsRead, hpr, hm]

/-- Witness for C5: a throwing read yields the empty list rather than an
exception, and a missing first path is dropped without affecting the rest. -/
theorem prepare_never_raises_witness :
    prepareMediaData fsUnread ["a.png"] = [] ∧
    prepareMediaData fsAbsent ["a.png", "b.png"] =
      prepareMediaData fsAbsent ["b.png"] :=
  ⟨(prepare_never_raises fsUnread).1 ["a.png"] rfl,
   (prepare_never_raises fsAbsent).2 "a.png" ["b.png"] (Or.inl rfl)⟩

/-- A reachable throwing read aborts the whole loop with an exception. -/
theorem prepareLoop_error_of_unreadable (fs : FileSys) (files : List String) :
    ∀ acc, (∃ p ∈ files, fs p = FileState.unreadable) →
      prepareLoop fs files acc = .error () := by
  induction files with
  | nil =>
    rintro acc ⟨p, hp, -⟩
    cases hp
  | cons q rest ih =>
    rintro acc ⟨p, hp, hu⟩
    rcases List.mem_cons.mp hp with rfl | hp'
    · simp [prepareLoop, fsExists, fsRead, hu]
    · cases hq : fs q with
      | absent =>
        simpa [prepareLoop, fsExists, hq] using ih acc ⟨p, hp', hu⟩
      | present d =>
        cases hm : getMimeType q with
        | none =>
          simpa [prepareLoop, fsExists, fsRead, hq, hm] using
            ih acc ⟨p, hp', hu⟩
        | some mt =>
          simpa [prepareLoop, fsExists, fsRead, hq, hm] using
            ih (acc ++ [⟨d, mt⟩]) ⟨p, hp', hu⟩
      | unreadable =>
        simp [prepareLoop, fsExists, fsRead, hq]

/-- Claim C10: if some file in the list exists but its read throws, the catch
in `prepareMediaData` returns the empty list, discarding the attachments
already prepared from earlier paths. -/
theorem prepare_discards_all_on_read_error (fs : FileSys)
    (files : List String)
    (h : ∃ p ∈ files, fs p = FileState.unreadable) :
    prepareMediaData fs files = [] := by
  simp [prepareMediaData, prepareLoop_error_of_unreadable fs files [] h]

/-- Witness for C10: `a.png` is readable and would contribute an attachment,
but the read of `b.png` throws and the whole result collapses to empty. -/
theorem prepare_discards_all_on_read_error_witness :
    prepareMediaData fsRace ["a.png", "b.png"] = [] :=
  prepare_discards_all_on_read_error fsRace ["a.png", "b.png"]
    ⟨"b.png", by decide, by decide⟩

/-- Claim C6: `loadCookies` yields the empty record list and an
unauthenticated state when the cookie file is missing, unparseable, or holds
no valid records; and in general it yields exactly the records that parse. -/
theorem loadCookies_resilient :
    (∀ env s, s.isLoggedIn = false →
      (env.cookieFile = CookieFile.missing ∨
        env.cookieFile = CookieFile.garbage ∨
        ∃ raw, env.cookieFile = CookieFile.entries raw ∧
          raw.filterMap parseCookie = []) →
      (loadCookies env s).res = .ok [] ∧
      (loadCookies env s).state.isLoggedIn = false) ∧
    (∀ env s raw, env.cookieFile = CookieFile.entries raw →
      (loadCookies env s).res = .ok (raw.filterMap parseCookie)) := by
  constructor
  · rintro env s hs (hm | hg | ⟨raw, he, hv⟩)
    · simp [loadCookies, hm, hs]
    · simp [loadCookies, hg]
    · simp [loadCookies, he, hv]
  · intro env s raw he
    simp only [loadCookies, he]
    split <;> rfl

/-- Witness for C6: a missing cookie file gives no records and leaves the
state unauthenticated; one valid plus one malformed record gives exactly the
valid one. -/
theorem loadCookies_resilient_witness :
    ((loadCookies envMissing initState).res = .ok [] ∧
      (loadCookies envMissing initState).state.isLoggedIn = false) ∧
    (loadCookies envMixed initState).res = .ok [1] := by
  refine ⟨loadCookies_resilient.1 envMissing initState rfl (Or.inl rfl), ?_⟩
  have h := loadCookies_resilient.2 envMixed initState
    [RawCookie.valid 1, RawCookie.malformed] rfl
  simpa [parseCookie] using h

/-- A successful platform login makes `login` return normally with the
authenticated flag set, for any outcome of the cookie save. -/
theorem login_res_ok (env : Env) (s : PState) (h : env.loginOk = true) :
    (login env s).res = .ok () ∧ (login env s).state.isLoggedIn = true := by
  simp [login, h, saveCookies]

/-- When the platform login succeeds, `initialize` returns normally. -/
theorem initSession_res_ok (env : Env) (s : PState) (h : env.loginOk = true) :
    (initSession env s).res = .ok () := by
  cases hb : (loadCookies env s).state.isLoggedIn
  · simp [initSession, hb, (login_res_ok env (loadCookies env s).state h).1]
  · simp [initSession, hb]

/-- If `initialize` returns normally, the instance is authenticated. -/
theorem initSession_loggedIn (env : Env) (s : PState)
    (h : (initSession env s).res = .ok ()) :
    (initSession env s).state.isLoggedIn = true := by
  cases hb : (loadCookies env s).state.isLoggedIn
  · cases hl : env.loginOk
    · exfalso
      simp [initSession, hb, login, hl] at h
    · simp [initSession, hb, (login_res_ok env (loadCookies env s).state hl).2]
  · simp [initSession, hb]

/-- The text-less tweet send of `postBody` succeeds whenever the platform
send does. -/
theorem postBody_res_ok (env : Env) (s1 : PState) (text : String)
    (files : List String) (t1 : List Event) (h : env.sendOk = true) :
    (postBody env s1 text files t1).res = .ok true := by
  unfold postBody sendStep
  split_ifs <;> ((try simp_all); (try (split <;> rfl)))

/-- `post` succeeds whenever the platform login and send succeed. -/
theorem post_res_ok (env : Env) (s : PState) (text : String)
    (files : List String) (hl : env.loginOk = true) (hs : env.sendOk = true) :
    (post env s text files).res = .ok true := by
  cases hb : s.isLoggedIn
  · have hok := initSession_res_ok env s hl
    simp only [post, hb, Bool.false_eq_true, if_false]
    rw [hok]
    exact postBody_res_ok env (initSession env s).state text files
      (initSession env s).trace hs
  · simp only [post, hb, if_true]
    exact postBody_res_ok env s text files [] hs

/-- Claim C7: `saveCookies` never throws; with the cookie write failing, a
successful login still returns normally and authenticated, and a post still
completes successfully. -/
theorem save_failure_not_propagated :
    (∀ env s, (saveCookies env s).res = .ok ()) ∧
    (∀ env s, env.saveOk = false → env.loginOk = true →
      (login env s).res = .ok () ∧ (login env s).state.isLoggedIn = true) ∧
    (∀ env s text files, env.saveOk = false → env.loginOk = true →
      env.sendOk = true → (post env s text files).res = .ok true) :=
  ⟨fun _ _ => rfl,
   fun env s _ hl => login_res_ok env s hl,
   fun env s text files _ hl hs => post_res_ok env s text files hl hs⟩

/-- Witness for C7 in an environment whose cookie write fails. -/
theorem save_failure_not_propagated_witness :
    (saveCookies envNoSave initState).res = .ok () ∧
    ((login envNoSave initState).res = .ok () ∧
      (login envNoSave initState).state.isLoggedIn = true) ∧
    (post envNoSave initState "hello" []).res = .ok true :=
  ⟨save_failure_not_propagated.1 envNoSave initState,
   save_failure_not_propagated.2.1 envNoSave initState rfl rfl,
   save_failure_not_propagated.2.2 envNoSave initState "hello" [] rfl rfl rfl⟩

/-- No event recorded by `loadCookies` is a send. -/
theorem loadCookies_trace_auth (env : Env) (s : PState) :
    ∀ e ∈ (loadCookies env s).trace, e.sendAuth = true := by
  intro e he
  cases hc : env.cookieFile with
  | missing => simp [loadCookies, hc] at he
  | garbage => simp [loadCookies, hc] at he
  | entries raw =>
    simp only [loadCookies, hc] at he
    split at he
    · simp only [List.mem_cons, List.not_mem_nil, or_false] at he
      rcases he with rfl | rfl <;> rfl
    · simp at he

/-- No event recorded by `login` is a send. -/
theorem login_trace_auth (env : Env) (s : PState) :
    ∀ e ∈ (login env s).trace, e.sendAuth = true := by
  intro e he
  cases hl : env.loginOk
  · simp only [login, hl, Bool.false_eq_true, if_false,
      List.mem_singleton] at he
    subst he; rfl
  · simp only [login, hl, if_true, saveCookies, List.mem_cons,
      List.not_mem_nil, or_false] at he
    rcases he with rfl | rfl <;> rfl

/-- No event recorded by `initialize` is a send. -/
theorem initSession_trace_auth (env : Env) (s : PState) :
    ∀ e ∈ (initSession env s).trace, e.sendAuth = true := by
  intro e he
  cases hb : (loadCookies env s).state.isLoggedIn
  · simp only [initSession, hb, Bool.false_eq_true, if_false,
      List.mem_append] at he
    rcases he with he | he
    · exact loadCookies_trace_auth env s e he
    · exact login_trace_auth env (loadCookies env s).state e he
  · simp only [initSession, hb, if_true] at he
    exact loadCookies_trace_auth env s e he

/-- The trace of one send step is the prior trace plus one send event flagged
with the state at the moment of the call. -/
theorem sendStep_trace (env : Env) (s1 : PState) (text : String)
    (replyTo : Option String) (media : Option (List Attachment))
    (t : List Event) :
    (sendStep env s1 text replyTo media t).trace =
      t ++ [Event.send s1.isLoggedIn text replyTo media] := by
  unfold sendStep
  split_ifs <;> rfl

/-- Closed form of the trace of `postBody`: the inherited trace, then the
media-preparation marker when the list is non-empty, then exactly one send
flagged with the current state. -/
theorem postBody_trace (env : Env) (s1 : PState) (text : String)
    (files : List String) (t1 : List Event) :
    (postBody env s1 text files t1).trace =
      if files.length = 0 then
        t1 ++ [Event.send s1.isLoggedIn text none none]
      else if 0 < (prepareMediaData env.fs files).length then
        t1 ++ [Event.prepareMedia files,
          Event.send s1.isLoggedIn text none
            (some (prepareMediaData env.fs files))]
      else
        t1 ++ [Event.prepareMedia files,
          Event.send s1.isLoggedIn text none none] := by
  unfold postBody
  by_cases h1 : files.length = 0
  · simp [h1, sendStep_trace]
  · by_cases h2 : 0 < (prepareMediaData env.fs files).length
    · simp [h1, h2, sendStep_trace]
    · simp [h1, h2, sendStep_trace]

/-- Every event of `postBody` is an inherited one, the media-preparation
marker, or a send flagged with the current state. -/
theorem postBody_trace_cases (env : Env) (s1 : PState) (text : String)
    (files : List String) (t1 : List Event) :
    ∀ e ∈ (postBody env s1 text files t1).trace,
      e ∈ t1 ∨ e = Event.prepareMedia files ∨
        ∃ m, e = Event.send s1.isLoggedIn text none m := by
  intro e he
  rw [postBody_trace] at he
  split_ifs at he <;>
    simp only [List.mem_append, List.mem_cons, List.mem_singleton,
      List.not_mem_nil, or_false] at he
  · rcases he with he | rfl
    · exact Or.inl he
    · exact Or.inr (Or.inr ⟨none, rfl⟩)
  · rcases he with he | rfl | rfl
    · exact Or.inl he
    · exact Or.inr (Or.inl rfl)
    · exact Or.inr (Or.inr ⟨_, rfl⟩)
  · rcases he with he | rfl | rfl
    · exact Or.inl he
    · exact Or.inr (Or.inl rfl)
    · exact Or.inr (Or.inr ⟨none, rfl⟩)

/-- The inherited trace prefixes everything `postBody` adds. -/
theorem postBody_trace_append (env : Env) (s1 : PState) (text : String)
    (files : List String) (t1 : List Event) :
    (postBody env s1 text files t1).trace =
      t1 ++ (postBody env s1 text files []).trace := by
  rw [postBody_trace, postBody_trace]
  split_ifs <;> simp

/-- The trace of `replyToTweet`'s body: the media-preparation marker then one
send carrying exactly the prepared attachments and the reply target. -/
theorem replyBody_trace (env : Env) (s1 : PState) (tweetId text : String)
    (files : List String) (t1 : List Event) :
    (replyBody env s1 tweetId text files t1).trace =
      t1 ++ [Event.prepareMedia files,
        Event.send s1.isLoggedIn text (some tweetId)
          (some (prepareMediaData env.fs files))] := by
  unfold replyBody
  rw [sendStep_trace]
  simp

/-- Claim C8: in every execution of `post` and of `replyToTweet`, every send
event carries the authenticated flag, and from an unauthenticated state both
operations run `initialize` first, its whole trace preceding anything else. -/
theorem send_requires_auth :
    (∀ env s text files e, e ∈ (post env s text files).trace →
      e.sendAuth = true) ∧
    (∀ env s tweetId text files e,
      e ∈ (replyToTweet env s tweetId text files).trace →
      e.sendAuth = true) ∧
    (∀ env s text files, s.isLoggedIn = false →
      ∃ rest, (post env s text files).trace =
        (initSession env s).trace ++ rest) ∧
    (∀ env s tweetId text files, s.isLoggedIn = false →
      ∃ rest, (replyToTweet env s tweetId text files).trace =
        (initSession env s).trace ++ rest) := by
  refine ⟨?_, ?_, ?_, ?_⟩
  · intro env s text files e he
    cases hb : s.isLoggedIn
    · simp only [post, hb, Bool.false_eq_true, if_false] at he
      cases hres : (initSession env s).res with
      | error err =>
        rw [hres] at he
        exact initSession_trace_auth env s e he
      | ok u =>
        cases u
        rw [hres] at he
        rcases postBody_trace_cases env (initSession env s).state text files
            (initSession env s).trace e he with h1 | rfl | ⟨m, rfl⟩
        · exact initSession_trace_auth env s e h1
        · rfl
        · simp [Event.sendAuth, initSession_loggedIn env s hres]
    · simp only [post, hb, if_true] at he
      rcases postBody_trace_cases env s text files [] e he
          with h1 | rfl | ⟨m, rfl⟩
      · simp at h1
      · rfl
      · simp [Event.sendAuth, hb]
  · intro env s tweetId text files e he
    cases hb : s.isLoggedIn
    · simp only [replyToTweet, hb, Bool.false_eq_true, if_false] at he
      cases hres : (initSession env s).res with
      | error err =>
        rw [hres] at he
        exact initSession_trace_auth env s e he
      | ok u =>
        cases u
        rw [hres] at he
        rw [replyBody_trace] at he
        simp only [List.mem_append, List.mem_cons, List.not_mem_nil,
          or_false, List.mem_singleton] at he
        rcases he with he | rfl | rfl
        · exact initSession_trace_auth env s e he
        · rfl
        · simp [Event.sendAuth, initSession_loggedIn env s hres]
    · simp only [replyToTweet, hb, if_true] at he
      rw [replyBody_trace] at he
      simp only [List.nil_append, List.mem_cons, List.not_mem_nil,
        or_false, List.mem_singleton] at he
      rcases he with rfl | rfl
      · rfl
      · simp [Event.sendAuth, hb]
  · intro env s text files hb
    simp only [post, hb, Bool.false_eq_true, if_false]
    cases hres : (initSession env s).res with
    | error err => exact ⟨[], by simp⟩
    | ok u =>
      exact ⟨(postBody env (initSession env s).state text files []).trace,
        postBody_trace_append env (initSession env s).state text files
          (initSession env s).trace⟩
  · intro env s tweetId text files hb
    simp only [replyToTweet, hb, Bool.false_eq_true, if_false]
    cases hres : (initSession env s).res with
    | error err => exact ⟨[], by simp⟩
    | ok u =>
      exact ⟨[Event.prepareMedia files,
          Event.send (initSession env s).state.isLoggedIn text (some tweetId)
            (some (prepareMediaData env.fs files))],
        replyBody_trace env (initSession env s).state tweetId text files
          (initSession env s).trace⟩

/-- Witness for C8: the send of a concrete successful post carries the
authenticated flag, and a fresh instance runs `initialize` first. -/
theorem send_requires_auth_witness :
    Event.sendAuth (Event.send true "hi" none none) = true ∧
    (∃ rest, (post envValid initState "hi" []).trace =
      (initSession envValid initState).trace ++ rest) :=
  ⟨send_requires_auth.1 envValid initState "hi" []
      (Event.send true "hi" none none) (by decide),
   send_requires_auth.2.2.1 envValid initState "hi" [] rfl⟩

/-- Claim C1: from an authenticated state with the platform send succeeding,
a post with an empty media list is sent text-only and succeeds without any
media-preparation event; a post whose non-empty media list prepares to zero
attachments falls back to a text-only send and still succeeds. -/
theorem post_empty_and_fallback :
    (∀ env s text, s.isLoggedIn = true → env.sendOk = true →
      post env s text [] =
        Out.mk (.ok true) s [Event.send true text none none]) ∧
    (∀ env s text files, s.isLoggedIn = true → env.sendOk = true →
      files ≠ [] → prepareMediaData env.fs files = [] →
      post env s text files =
        Out.mk (.ok true) s
          [Event.prepareMedia files, Event.send true text none none]) := by
  constructor
  · intro env s text hs hsend
    simp [post, hs, postBody, sendStep, hsend]
  · intro env s text files hs hsend hne hprep
    simp [post, hs, postBody, sendStep, hsend, hprep,
      List.length_eq_zero, hne]

/-- Witness for C1: a text-only post, and a post whose single media path is
missing, both succeed with a text-only send. -/
theorem post_empty_and_fallback_witness :
    post envValid ⟨true⟩ "hello" [] =
      Out.mk (.ok true) ⟨true⟩ [Event.send true "hello" none none] ∧
    post envValid ⟨true⟩ "hello" ["missing.jpg"] =
      Out.mk (.ok true) ⟨true⟩
        [Event.prepareMedia ["missing.jpg"],
          Event.send true "hello" none none] :=
  ⟨post_empty_and_fallback.1 envValid ⟨true⟩ "hello" rfl rfl,
   post_empty_and_fallback.2 envValid ⟨true⟩ "hello" ["missing.jpg"]
     rfl rfl (by decide) rfl⟩

/-- Claim C2: from an authenticated state, `replyToTweet` always prepares
media and always attempts the send with exactly the prepared attachment list,
with no empty-list special case. -/
theorem reply_always_sends_prepared (env : Env) (s : PState)
    (tweetId text : String) (files : List String)
    (hs : s.isLoggedIn = true) :
    (replyToTweet env s tweetId text files).trace =
      [Event.prepareMedia files,
        Event.send true text (some tweetId)
          (some (prepareMediaData env.fs files))] := by
  simp [replyToTweet, hs, replyBody_trace]

/-- Witness for C2: a reply with no media paths still sends, carrying the
empty attachment list. -/
theorem reply_always_sends_prepared_witness :
    (replyToTweet envValid ⟨true⟩ "123" "hi" []).trace =
      [Event.prepareMedia [],
        Event.send true "hi" (some "123") (some [])] :=
  (reply_always_sends_prepared envValid ⟨true⟩ "123" "hi" [] rfl).trans rfl

/-- Claim C9: the CLI exits 1 with no operation attempted on an empty
command line, on `tweet` without text, and on an unknown command; a `tweet`
or `reply` run exits 0 when the requested operation completes and 1 when it
throws a propagated error. -/
theorem cli_exit_codes (env : Env) :
    cliMain env [] = (1, []) ∧
    cliMain env ["tweet"] = (1, []) ∧
    (∀ c args, c ≠ "" → toLowerCase c ≠ "tweet" → toLowerCase c ≠ "reply" →
      cliMain env (c :: args) = (1, [])) ∧
    (∀ text files, text ≠ "" →
      ((post env initState text files).res = .ok true →
        cliMain env ("tweet" :: text :: files) =
          (0, (post env initState text files).trace)) ∧
      ((post env initState text files).res = .error () →
        cliMain env ("tweet" :: text :: files) =
          (1, (post env initState text files).trace))) ∧
    (∀ tweetId replyText files, tweetId ≠ "" → replyText ≠ "" →
      ((replyToTweet env initState tweetId replyText files).res = .ok true →
        cliMain env ("reply" :: tweetId :: replyText :: files) =
          (0, (replyToTweet env initState tweetId replyText files).trace)) ∧
      ((replyToTweet env initState tweetId replyText files).res = .error () →
        cliMain env ("reply" :: tweetId :: replyText :: files) =
          (1, (replyToTweet env initState tweetId replyText files).trace))) := by
  have htw : toLowerCase "tweet" = "tweet" := rfl
  have hrp : toLowerCase "reply" = "reply" := rfl
  refine ⟨rfl, rfl, ?_, ?_, ?_⟩
  · intro c args hc ht hr
    simp [cliMain, hc, ht, hr]
  · intro text files htext
    constructor <;> intro hres <;>
      simp [cliMain, htw, htext, hres]
  · intro tweetId replyText files hid hrt
    constructor <;> intro hres <;>
      simp [cliMain, hrp, hid, hrt, hres]

/-- Witness for C9: an unknown command exits 1 with nothing attempted, and
concrete successful `tweet` and `reply` runs both exit 0. -/
theorem cli_exit_codes_witness :
    cliMain envValid ["frobnicate"] = (1, []) ∧
    cliMain envValid ["tweet", "hello"] =
      (0, (post envValid initState "hello" []).trace) ∧
    cliMain envValid ["reply", "123", "hi"] =
      (0, (replyToTweet envValid initState "123" "hi" []).trace) :=
  ⟨(cli_exit_codes envValid).2.2.1 "frobnicate" [] (by decide) (by decide)
      (by decide),
   ((cli_exit_codes envValid).2.2.2.1 "hello" [] (by decide)).1 rfl,
   ((cli_exit_codes envValid).2.2.2.2 "123" "hi" [] (by decide)
      (by decide)).1 rfl⟩

end AutoPost
